import Mathlib

/-!
Verification development for the CritiCloudFunctions repository
(functions/index.js): two HTTP-triggered cloud functions, seedData and
updateUser, that write synthetic data to a document store.

The embedding below translates the JavaScript source into Lean:
  * JavaScript request values are modelled by JVal (JSON scalars); document
    values by DVal (which adds the server-timestamp sentinel and embedded
    objects).  Truthiness, the || operator, Number(), Math.min and NaN are
    modelled explicitly (NaN as the value none of Option Int).  Number() is
    modelled on its domain of use: the empty string, decimal integer strings
    with an optional leading minus sign, JSON scalars; every other string is
    mapped to NaN.
  * The faker library is an oracle: a structure of arbitrary functions from
    a call index to values, since the source treats it as an external
    pseudo-random generator.
  * Firestore is the Storage Gateway of the spec: documents are association
    lists of field names to values; batch commits are lists of operation
    lists.  Its update semantics (defined fields are set, fields given the
    value undefined are left unchanged) follows the description of the
    external collaborator in the spec, since the client library is not part
    of the repository.
  * String.toLowerCase is modelled on ASCII via the core Char.toLower; the
    claims only apply it to ASCII data or use it symmetrically.
-/

namespace CritiCloud

/-- JSON scalar values as they appear in requests (query strings arrive as
JVal.str; JSON bodies may carry strings, numbers, booleans or null).  JS
numbers are modelled by integers, which covers every value the handlers
compare against their integer caps. -/
inductive JVal where
  | str (s : String)
  | num (n : Int)
  | boolean (b : Bool)
  | nullv
deriving Repr, DecidableEq

/-- Values stored in documents: JSON scalars, the serverTimestamp sentinel of
admin.firestore.FieldValue, and embedded objects (used by the album payload
for its artist snapshot). -/
inductive DVal where
  | str (s : String)
  | num (n : Int)
  | boolean (b : Bool)
  | nullv
  | svrTime
  | dobj (fields : List (String × DVal))

/-- JavaScript truthiness of a JSON scalar. -/
def jvTruthy : JVal → Bool
  | .str s => s ≠ ""
  | .num n => n ≠ 0
  | .boolean b => b
  | .nullv => false

/-- The JavaScript || operator applied to an optional request value (absent
fields are undefined, hence falsy) with a fallback. -/
def jsOr (a : Option JVal) (b : JVal) : JVal :=
  match a with
  | some v => if jvTruthy v then v else b
  | none => b

/-- A chain of || over optional strings ending in the empty string, as in the
key extraction of both handlers: the first truthy (non-empty, present) string
wins. -/
def firstTruthyStr : List (Option String) → String
  | [] => ""
  | a :: rest =>
    match a with
    | some s => if s = "" then firstTruthyStr rest else s
    | none => firstTruthyStr rest

/-- Decimal digit value of a character, if it is a digit. -/
def digitVal? (c : Char) : Option Nat :=
  if 48 ≤ c.toNat ∧ c.toNat ≤ 57 then some (c.toNat - 48) else none

/-- Value of a list of decimal digits (most significant first), if every
character is a digit. -/
def decValue? : List Char → Nat → Option Nat
  | [], acc => some acc
  | c :: cs, acc =>
    match digitVal? c with
    | some d => decValue? cs (acc * 10 + d)
    | none => none

/-- JavaScript Number() on a string, restricted to the shapes the handlers
meet: the empty string converts to 0, an optional minus sign followed by a
non-empty run of decimal digits converts to that integer, and every other
string converts to NaN (modelled as none). -/
def jsStringToNumber (s : String) : Option Int :=
  match s.data with
  | [] => some 0
  | '-' :: c :: cs => (decValue? (c :: cs) 0).map (fun n => -(n : Int))
  | l => (decValue? l 0).map (fun n => (n : Int))

/-- JavaScript Number() on a JSON scalar; none models NaN. -/
def toNumber : JVal → Option Int
  | .str s => jsStringToNumber s
  | .num n => some n
  | .boolean b => some (if b then 1 else 0)
  | .nullv => some 0

/-- JavaScript Math.min with a NaN-propagating first argument and an integer
literal second argument: Math.min(NaN, b) is NaN. -/
def jsMinNaN (a : Option Int) (b : Int) : Option Int :=
  a.map (fun n => min n b)

/-- Number of iterations of a JavaScript loop for (let i = 0; i < c; i++)
when c is the given number: zero when c is NaN or not positive. -/
def loopIters : Option Int → Nat
  | none => 0
  | some n => n.toNat

/-- JavaScript String() on a JSON scalar. -/
def jsToString : JVal → String
  | .str s => s
  | .num n => toString n
  | .boolean b => if b then "true" else "false"
  | .nullv => "null"

/-- ASCII lowercasing of a string, the fragment of the JavaScript
toLowerCase that the handlers rely on (usernames are stripped to ASCII word
characters before lowercasing). -/
def jsToLower (s : String) : String :=
  String.mk (s.data.map Char.toLower)

/-- Characters kept by the replace(/[^a-zA-Z0-9_]/g, "") in makeFakeUser. -/
def isWordChar (c : Char) : Bool :=
  (97 ≤ c.toNat && c.toNat ≤ 122) || (65 ≤ c.toNat && c.toNat ≤ 90) ||
    (48 ≤ c.toNat && c.toNat ≤ 57) || (c.toNat == 95)

/-- The stripping regex replace of makeFakeUser: keep only ASCII letters,
digits and underscore. -/
def stripNonWord (s : String) : String :=
  String.mk (s.data.filter isWordChar)

/-- Lowercase word characters: lowercase ASCII letters, digits, underscore. -/
def isLowerWordChar (c : Char) : Bool :=
  (97 ≤ c.toNat && c.toNat ≤ 122) || (48 ≤ c.toNat && c.toNat ≤ 57) ||
    (c.toNat == 95)

/-- The updates value of an updateUser request: a JSON object of field names
to scalars, or a bare scalar (nested objects inside updates do not occur in
the claims under verification). -/
inductive JSUpd where
  | uobj (fields : List (String × JVal))
  | uprim (v : JVal)
deriving Repr, DecidableEq

/-- JavaScript truthiness of an updates value: every object is truthy. -/
def updTruthy : JSUpd → Bool
  | .uobj _ => true
  | .uprim v => jvTruthy v

/-- The test typeof updates === "object"; note typeof null is "object". -/
def typeofObject : JSUpd → Bool
  | .uobj _ => true
  | .uprim .nullv => true
  | .uprim _ => false

/-- Whether an updates value is a non-null object (the spec-level notion). -/
def isNonNullObject : JSUpd → Bool
  | .uobj _ => true
  | .uprim _ => false

/-- An HTTP request as the two handlers observe it: the query parameters,
the x-seed-key header, and the body fields each handler reads.  Absent
values are none; body count fields arrive as JSON scalars; query parameters
arrive as strings.  The fields bodyAlbumsPerArtist and bodyReviewsPerUser
are part of the request but are never read by the source. -/
structure Req where
  queryKey : Option String := none
  headerSeedKey : Option String := none
  bodyKey : Option String := none
  queryUsers : Option String := none
  bodyUsers : Option JVal := none
  queryArtists : Option String := none
  bodyArtists : Option JVal := none
  queryAlbumsPerArtist : Option String := none
  bodyAlbumsPerArtist : Option JVal := none
  queryReviewsPerUser : Option String := none
  bodyReviewsPerUser : Option JVal := none
  bodyId : Option String := none
  queryId : Option String := none
  bodyUpdates : Option JSUpd := none
  queryUpdates : Option JSUpd := none

/-!  Entity records, mirroring the object literals of the four generators. -/

/-- The in-memory user object built by makeFakeUser. -/
structure User where
  id : String
  username : String
  email : String
  name : String
  bio : String
  profileImageUrl : String
  avatarUrl : String
  usernameLowercase : String
  nameLowercase : String
  followers : Int
  followersCount : Int
  following : Int
  followingCount : Int
  createdAt : DVal
  updatedAt : DVal

/-- The in-memory artist object built by makeFakeArtist. -/
structure Artist where
  id : Int
  name : String
  profileImageUrl : String
  genre : String
  createdAt : DVal

/-- The artist snapshot embedded in an album by makeFakeAlbum. -/
structure ArtistRef where
  id : Int
  name : String
  profileImageUrl : String
  genre : String

/-- The in-memory album object built by makeFakeAlbum. -/
structure Album where
  id : Int
  title : String
  year : String
  coverUrl : String
  artist : ArtistRef
  createdAt : DVal

/-- The in-memory review object built by makeFakeReview. -/
structure Review where
  content : String
  score : Int
  isLowScore : Bool
  albumId : Int
  userId : String
  firebaseUserId : String
  likesCount : Int
  createdAt : String
  updatedAt : String

/-- The faker library and the clock as an oracle: arbitrary functions from a
call index to the produced value.  The source treats faker as an external
pseudo-random generator, so nothing is assumed about these functions. -/
structure Faker where
  uuid : Nat → String
  rawUsername : Nat → String
  fullName : Nat → String
  avatar : Nat → String
  email : Nat → String
  sentence : Nat → String
  artistName : Nat → String
  picsum : Nat → String
  genre : Nat → String
  artistId : Nat → Int
  songName : Nat → String
  pastYear : Nat → String
  albumId : Nat → Int
  paragraph : Nat → String
  score : Nat → Int
  likes : Nat → Int
  pick : Nat → Nat
  nowIso : Nat → String

/-- makeFakeUser: the username is stripped of non-word characters and
lowercased; the avatar URL is duplicated; counters start at zero; both
timestamps are server timestamps. -/
def makeFakeUser (fk : Faker) (i : Nat) : User :=
  let username := jsToLower (stripNonWord (fk.rawUsername i))
  let name := fk.fullName i
  let profileImageUrl := fk.avatar i
  { id := fk.uuid i
    username := username
    email := fk.email i
    name := name
    bio := fk.sentence i
    profileImageUrl := profileImageUrl
    avatarUrl := profileImageUrl
    usernameLowercase := jsToLower username
    nameLowercase := jsToLower name
    followers := 0
    followersCount := 0
    following := 0
    followingCount := 0
    createdAt := DVal.svrTime
    updatedAt := DVal.svrTime }

/-- makeFakeArtist. -/
def makeFakeArtist (fk : Faker) (i : Nat) : Artist :=
  { id := fk.artistId i
    name := fk.artistName i
    profileImageUrl := fk.picsum i
    genre := fk.genre i
    createdAt := DVal.svrTime }

/-- makeFakeAlbum: embeds a snapshot of the given artist. -/
def makeFakeAlbum (fk : Faker) (k : Nat) (artist : Artist) : Album :=
  { id := fk.albumId k
    title := fk.songName k
    year := fk.pastYear k
    coverUrl := fk.picsum k
    artist :=
      { id := artist.id
        name := artist.name
        profileImageUrl := artist.profileImageUrl
        genre := artist.genre }
    createdAt := DVal.svrTime }

/-- makeFakeReview, for a user id and album id chosen by the caller; the
isLowScore flag is always false, and the timestamps are client-side ISO
strings from the clock oracle. -/
def makeFakeReview (fk : Faker) (k : Nat) (userId : String) (albumId : Int) :
    Review :=
  { content := fk.paragraph k
    score := fk.score k
    isLowScore := false
    albumId := albumId
    userId := userId
    firebaseUserId := userId
    likesCount := fk.likes k
    createdAt := fk.nowIso k
    updatedAt := fk.nowIso k }

/-!  The seedData count pipeline: Number(query || body || default) capped by
Math.min.  Only users and artists fall back to the body; albumsPerArtist and
reviewsPerUser are read from the query alone. -/

/-- The raw value req.query.users || req.body?.users || 20. -/
def rawUsers (req : Req) : JVal :=
  jsOr (req.queryUsers.map JVal.str) (jsOr req.bodyUsers (.num 20))

/-- The raw value req.query.artists || req.body?.artists || 8. -/
def rawArtists (req : Req) : JVal :=
  jsOr (req.queryArtists.map JVal.str) (jsOr req.bodyArtists (.num 8))

/-- The raw value req.query.albumsPerArtist || 3. -/
def rawAlbumsPerArtist (req : Req) : JVal :=
  jsOr (req.queryAlbumsPerArtist.map JVal.str) (.num 3)

/-- The raw value req.query.reviewsPerUser || 2. -/
def rawReviewsPerUser (req : Req) : JVal :=
  jsOr (req.queryReviewsPerUser.map JVal.str) (.num 2)

/-- usersCount = Math.min(Number(...), 500). -/
def usersCount (req : Req) : Option Int := jsMinNaN (toNumber (rawUsers req)) 500

/-- artistsCount = Math.min(Number(...), 200). -/
def artistsCount (req : Req) : Option Int :=
  jsMinNaN (toNumber (rawArtists req)) 200

/-- albumsPerArtist = Math.min(Number(...), 20). -/
def albumsPerArtist (req : Req) : Option Int :=
  jsMinNaN (toNumber (rawAlbumsPerArtist req)) 20

/-- reviewsPerUser = Math.min(Number(...), 20). -/
def reviewsPerUser (req : Req) : Option Int :=
  jsMinNaN (toNumber (rawReviewsPerUser req)) 20

/-- Number of users actually generated by the for loop. -/
def effUsers (req : Req) : Nat := loopIters (usersCount req)

/-- Number of artists actually generated. -/
def effArtists (req : Req) : Nat := loopIters (artistsCount req)

/-- Number of albums generated per artist. -/
def effAlbumsPerArtist (req : Req) : Nat := loopIters (albumsPerArtist req)

/-- Number of reviews generated per user. -/
def effReviewsPerUser (req : Req) : Nat := loopIters (reviewsPerUser req)

/-!  Entity generation, one list per collection. -/

/-- The users array of a seed run. -/
def seedUsers (fk : Faker) (req : Req) : List User :=
  (List.range (effUsers req)).map (makeFakeUser fk)

/-- The artists array of a seed run. -/
def seedArtists (fk : Faker) (req : Req) : List Artist :=
  (List.range (effArtists req)).map (makeFakeArtist fk)

/-- The albums array of a seed run: for each artist, its fixed number of
albums, in loop order. -/
def seedAlbums (fk : Faker) (req : Req) : List Album :=
  (List.range (effArtists req)).flatMap (fun i =>
    (List.range (effAlbumsPerArtist req)).map (fun j =>
      makeFakeAlbum fk (i * effAlbumsPerArtist req + j) (makeFakeArtist fk i)))

/-- faker.helpers.arrayElement: selects an element of the array by an
arbitrary index from the oracle; on an empty array no element exists and the
call fails (the library throws), modelled as none. -/
def arrayElement {α : Type} (l : List α) (k : Nat) : Option α :=
  l.get? (k % l.length)

/-- Effectful map over Option, modelling a loop whose body may throw: the
first failure aborts the whole computation. -/
def mapOptM {α β : Type} (f : α → Option β) : List α → Option (List β)
  | [] => some []
  | a :: l =>
    match f a, mapOptM f l with
    | some b, some bs => some (b :: bs)
    | _, _ => none

/-- The review slots of one user: reviewsPerUser picks from the album pool,
each producing one review carrying the user id and the picked album id. -/
def userReviews (fk : Faker) (albums : List Album) (R : Nat) (u : User)
    (ui : Nat) : Option (List Review) :=
  mapOptM (fun r =>
      (arrayElement albums (fk.pick (ui * R + r))).map (fun al =>
        makeFakeReview fk (ui * R + r) u.id al.id))
    (List.range R)

/-- The reviews loop over all users, threading the user index. -/
def genReviewsAux (fk : Faker) (albums : List Album) (R : Nat) :
    List User → Nat → Option (List Review)
  | [], _ => some []
  | u :: rest, ui =>
    match userReviews fk albums R u ui, genReviewsAux fk albums R rest (ui + 1) with
    | some mine, some later => some (mine ++ later)
    | _, _ => none

/-- The reviews array of a seed run, none when a pick from an empty album
pool aborts the handler. -/
def seedReviews (fk : Faker) (req : Req) : Option (List Review) :=
  genReviewsAux fk (seedAlbums fk req) (effReviewsPerUser req)
    (seedUsers fk req) 0

/-!  Documents, references, write operations and batching. -/

/-- A stored document: an association list of field names to values. -/
def Doc : Type := List (String × DVal)

/-- Lookup of a key in an association list (first occurrence). -/
def alookup {β : Type} : List (String × β) → String → Option β
  | [], _ => none
  | (k1, v) :: rest, k => if k1 = k then some v else alookup rest k

/-- Setting a key in an association list: replaces the first occurrence or
appends when the key is absent. -/
def aset {β : Type} : List (String × β) → String → β → List (String × β)
  | [], k, v => [(k, v)]
  | (k1, v1) :: rest, k, v =>
    if k1 = k then (k, v) :: rest else (k1, v1) :: aset rest k v

/-- Field read on a document. -/
def getField (d : Doc) (k : String) : Option DVal := alookup d k

/-- A document reference: a named document of a collection, or an
auto-assigned key (db.collection(c).doc() with no argument), distinguished by
its allocation index. -/
inductive DocRef where
  | named (coll : String) (id : String)
  | auto (coll : String) (n : Nat)
deriving Repr, DecidableEq

/-- The collection a reference points into. -/
def DocRef.coll : DocRef → String
  | .named c _ => c
  | .auto c _ => c

/-- The write mode of an operation sent to the storage gateway. -/
inductive WriteMode where
  | setMerge
  | updateDoc
deriving Repr, DecidableEq

/-- One write operation handed to the storage gateway. -/
structure Op where
  ref : DocRef
  mode : WriteMode
  data : Doc

/-- The user payload literal built inside seedData before pushing the write:
note that it contains createdAt but not updatedAt. -/
def userPayload (u : User) : Doc :=
  [("id", .str u.id),
   ("username", .str u.username),
   ("email", .str u.email),
   ("name", .str u.name),
   ("bio", .str u.bio),
   ("profileImageUrl", .str u.profileImageUrl),
   ("avatarUrl", .str u.avatarUrl),
   ("usernameLowercase", .str u.usernameLowercase),
   ("nameLowercase", .str u.nameLowercase),
   ("followers", .num 0),
   ("followersCount", .num 0),
   ("following", .num 0),
   ("followingCount", .num 0),
   ("createdAt", DVal.svrTime)]

/-- The artist document: the artist object itself. -/
def artistDoc (a : Artist) : Doc :=
  [("id", .num a.id),
   ("name", .str a.name),
   ("profileImageUrl", .str a.profileImageUrl),
   ("genre", .str a.genre),
   ("createdAt", a.createdAt)]

/-- The album payload literal built inside seedData, with the embedded
artist snapshot. -/
def albumDoc (al : Album) : Doc :=
  [("id", .num al.id),
   ("title", .str al.title),
   ("year", .str al.year),
   ("coverUrl", .str al.coverUrl),
   ("artist", .dobj
      [("id", .num al.artist.id),
       ("name", .str al.artist.name),
       ("profileImageUrl", .str al.artist.profileImageUrl),
       ("genre", .str al.artist.genre)]),
   ("createdAt", DVal.svrTime)]

/-- The review document: the review object itself. -/
def reviewDoc (r : Review) : Doc :=
  [("content", .str r.content),
   ("score", .num r.score),
   ("isLowScore", .boolean r.isLowScore),
   ("albumId", .num r.albumId),
   ("userId", .str r.userId),
   ("firebaseUserId", .str r.firebaseUserId),
   ("likesCount", .num r.likesCount),
   ("createdAt", .str r.createdAt),
   ("updatedAt", .str r.updatedAt)]

/-- The ops array of a seed run, in push order: users, artists, albums,
reviews; every op is a set with merge. -/
def seedOps (users : List User) (artists : List Artist) (albums : List Album)
    (reviews : List Review) : List Op :=
  users.map (fun u => ⟨.named "users" u.id, .setMerge, userPayload u⟩)
    ++ artists.map (fun a =>
        ⟨.named "artists" (toString a.id), .setMerge, artistDoc a⟩)
    ++ albums.map (fun al =>
        ⟨.named "albums" (toString al.id), .setMerge, albumDoc al⟩)
    ++ reviews.enum.map (fun p => ⟨.auto "reviews" p.1, .setMerge, reviewDoc p.2⟩)

/-- The loop body of commitBatchOps: accumulate ops into the current batch,
commit when it reaches 500 ops, and commit a non-empty final batch after the
loop.  The returned list is the sequence of committed batches in commit
order. -/
def commitLoop : List Op → List Op → Nat → List (List Op)
  | [], batch, count => if 0 < count then [batch] else []
  | op :: rest, batch, count =>
    if 500 ≤ count + 1 then (batch ++ [op]) :: commitLoop rest [] 0
    else commitLoop rest (batch ++ [op]) (count + 1)

/-- commitBatchOps of the source: batches of at most 500 ops, committed
sequentially. -/
def commitBatchOps (ops : List Op) : List (List Op) := commitLoop ops [] 0

/-!  The seedData handler. -/

/-- The response counts object of a successful seed run. -/
structure Counts where
  users : Nat
  artists : Nat
  albums : Nat
  reviews : Nat
deriving Repr, DecidableEq

/-- The observable outcome of a seedData request: HTTP status, the ok flag,
the counts of the JSON body when present, and the batches committed to the
storage gateway. -/
structure SeedResponse where
  status : Nat
  ok : Bool
  counts : Option Counts
  batches : List (List Op)

/-- The secret extracted by seedData:
req.query.key || req.get("x-seed-key") || (req.body && req.body.key) || "". -/
def seedSecret (req : Req) : String :=
  firstTruthyStr [req.queryKey, req.headerSeedKey, req.bodyKey]

/-- The seedData handler: authorization check, entity generation, batched
writes, JSON response.  A pick from an empty album pool throws inside the
reviews loop, is caught by the surrounding try, and yields the 500 response
with nothing written (the throw happens before any op is pushed). -/
def seedData (SEED_KEY : String) (fk : Faker) (req : Req) : SeedResponse :=
  let key := seedSecret req
  if key = "" ∨ key ≠ SEED_KEY then
    { status := 401, ok := false, counts := none, batches := [] }
  else
    let users := seedUsers fk req
    let artists := seedArtists fk req
    let albums := seedAlbums fk req
    match seedReviews fk req with
    | none => { status := 500, ok := false, counts := none, batches := [] }
    | some reviews =>
      { status := 200
        ok := true
        counts := some
          ⟨users.length, artists.length, albums.length, reviews.length⟩
        batches := commitBatchOps (seedOps users artists albums reviews) }

/-!  The updateUser handler. -/

/-- The users collection as the update endpoint sees it: user ids to
documents. -/
def Store : Type := List (String × Doc)

/-- The secret extracted by updateUser:
req.body?.key || req.query?.key || req.get("x-seed-key") || "".  Note the
order differs from seedData: the body is consulted first. -/
def updSecret (req : Req) : String :=
  firstTruthyStr [req.bodyKey, req.queryKey, req.headerSeedKey]

/-- The || of two optional strings, as in req.body?.id || req.query?.id. -/
def jsOrStrOpt (a b : Option String) : Option String :=
  match a with
  | some s => if s = "" then b else some s
  | none => b

/-- The effective id: req.body?.id || req.query?.id. -/
def effId (req : Req) : Option String := jsOrStrOpt req.bodyId req.queryId

/-- The || of two optional updates values. -/
def jsOrUpd (a b : Option JSUpd) : Option JSUpd :=
  match a with
  | some u => if updTruthy u then some u else b
  | none => b

/-- The effective updates: req.body?.updates || req.query?.updates. -/
def effUpdates (req : Req) : Option JSUpd := jsOrUpd req.bodyUpdates req.queryUpdates

/-- JavaScript falsiness of the effective id. -/
def idFalsy : Option String → Bool
  | none => true
  | some s => s == ""

/-- JavaScript falsiness of the effective updates. -/
def updFalsy : Option JSUpd → Bool
  | none => true
  | some u => !updTruthy u

/-- The validation test !id || !updates || typeof updates !== "object",
returned as validity. -/
def updValid (id1 : Option String) (upd : Option JSUpd) : Bool :=
  !(idFalsy id1 || updFalsy upd ||
    match upd with
    | some u => !typeofObject u
    | none => true)

/-- The fields of a validated updates object. -/
def updFields : Option JSUpd → List (String × JVal)
  | some (.uobj fs) => fs
  | _ => []

/-- Embedding of a request scalar into a document value. -/
def embedJVal : JVal → DVal
  | .str s => .str s
  | .num n => .num n
  | .boolean b => .boolean b
  | .nullv => .nullv

/-- The conditional lowercase entry of the update literal:
updates.k ? String(updates.k).toLowerCase() : undefined, with none playing
undefined. -/
def lowerOfUpdate (fields : List (String × JVal)) (k : String) : Option DVal :=
  match alookup fields k with
  | some v => if jvTruthy v then some (.str (jsToLower (jsToString v))) else none
  | none => none

/-- The object literal passed to userRef.update: the spread of updates, then
the two conditional lowercase fields and the server update timestamp, later
keys overriding spread entries.  Entries carry Option DVal so that the
JavaScript value undefined is representable as none. -/
def buildUpdateObj (fields : List (String × JVal)) :
    List (String × Option DVal) :=
  aset (aset (aset (fields.map (fun p => (p.1, some (embedJVal p.2))))
        "usernameLowercase" (lowerOfUpdate fields "username"))
      "nameLowercase" (lowerOfUpdate fields "name"))
    "updatedAt" (some DVal.svrTime)

/-- Modelled from the spec: the update operation of the Storage Gateway (the
database client is an external collaborator outside this repository).  Each
entry with a defined value sets that field of the document; an entry whose
value is undefined is left absent and thus does not alter the stored value,
and fields not named are untouched. -/
def applyUpdate : Doc → List (String × Option DVal) → Doc
  | d, [] => d
  | d, (k, some v) :: rest => applyUpdate (aset d k v) rest
  | d, (_, none) :: rest => applyUpdate d rest

/-- The observable outcome of an updateUser request: HTTP status, the ok
flag, the resulting users collection, and the user document of the JSON
response when present. -/
structure UpdateResponse where
  status : Nat
  ok : Bool
  store : Store
  returnedUser : Option Doc

/-- The updateUser handler: authorization check, validation, update through
the storage gateway, read back of the updated document.  An update on a
missing document fails in the gateway and surfaces as the 500 response with
the store unchanged. -/
def updateUser (SEED_KEY : String) (store : Store) (req : Req) :
    UpdateResponse :=
  let key := updSecret req
  if key = "" ∨ key ≠ SEED_KEY then
    { status := 401, ok := false, store := store, returnedUser := none }
  else
    let id1 := effId req
    let upd := effUpdates req
    if !updValid id1 upd then
      { status := 400, ok := false, store := store, returnedUser := none }
    else
      let id := id1.getD ""
      let fields := updFields upd
      match alookup store id with
      | none => { status := 500, ok := false, store := store, returnedUser := none }
      | some doc =>
        let newDoc := applyUpdate doc (buildUpdateObj fields)
        { status := 200
          ok := true
          store := aset store id newDoc
          returnedUser := some newDoc }

/-- Total number of write operations a seed run submits, in terms of the
effective counts: one per user, artist, album and review. -/
def seedTotalOps (req : Req) : Nat :=
  effUsers req + effArtists req +
    effArtists req * effAlbumsPerArtist req +
    effUsers req * effReviewsPerUser req

/-!  A concrete faker oracle used to instantiate theorems with hypotheses on
concrete requests. -/

/-- A concrete faker oracle. -/
def fkW : Faker :=
  { uuid := fun i => "user-" ++ toString i
    rawUsername := fun i => "Ab-C" ++ toString i
    fullName := fun i => "Name " ++ toString i
    avatar := fun i => "avatar-" ++ toString i
    email := fun i => "mail-" ++ toString i
    sentence := fun i => "bio-" ++ toString i
    artistName := fun i => "Artist " ++ toString i
    picsum := fun i => "picsum-" ++ toString i
    genre := fun i => "genre-" ++ toString i
    artistId := fun i => 1000 + i
    songName := fun i => "Song " ++ toString i
    pastYear := fun _ => "1999"
    albumId := fun i => 10000 + i
    paragraph := fun i => "content-" ++ toString i
    score := fun _ => 50
    likes := fun _ => 3
    pick := fun i => i
    nowIso := fun _ => "2026-01-01T00:00:00.000Z" }

/-- The lowercase-normalization invariant on a stored or persisted user
document: whenever username (resp. name) holds a string, the corresponding
lowercase field holds its lowercased form. -/
def lowerNormalized (d : Doc) : Prop :=
  (∀ s, getField d "username" = some (.str s) →
    getField d "usernameLowercase" = some (.str (jsToLower s))) ∧
  (∀ s, getField d "name" = some (.str s) →
    getField d "nameLowercase" = some (.str (jsToLower s)))

/-- A small authorized seed request: one user, no artists, no reviews. -/
def reqSmall : Req :=
  { queryKey := some "dev-seed-key", queryUsers := some "1",
    queryArtists := some "0", queryReviewsPerUser := some "0" }

/-- A small authorized seed request with one entity of every kind. -/
def reqOneEach : Req :=
  { queryKey := some "dev-seed-key", queryUsers := some "1",
    queryArtists := some "1", queryAlbumsPerArtist := some "1",
    queryReviewsPerUser := some "1" }

/-- An authorized seed request with a non-numeric users parameter. -/
def reqNaNUsers : Req :=
  { queryKey := some "dev-seed-key", queryUsers := some "abc" }

/-- An authorized seed request asking for zero users. -/
def reqZeroUsers : Req :=
  { queryKey := some "dev-seed-key", queryUsers := some "0",
    queryReviewsPerUser := some "0" }

/-- An authorized seed request carrying albumsPerArtist only in the body. -/
def reqBodyAlbums : Req :=
  { queryKey := some "dev-seed-key", queryUsers := some "1",
    queryArtists := some "1", bodyAlbumsPerArtist := some (.num 10),
    queryReviewsPerUser := some "0" }

/-- An authorized seed request with explicit numeric counts. -/
def reqNumeric : Req :=
  { queryKey := some "dev-seed-key", queryUsers := some "7",
    queryArtists := some "4", queryAlbumsPerArtist := some "1",
    queryReviewsPerUser := some "0" }

/-- An update request with a wrong key and no id. -/
def reqBadKeyNoId : Req :=
  { bodyKey := some "wrong", bodyUpdates := some (.uobj [("bio", .str "x")]) }

/-- An authorized update request with no id. -/
def reqMissingId : Req :=
  { bodyKey := some "dev-seed-key",
    bodyUpdates := some (.uobj [("bio", .str "x")]) }

/-- A stored user document with an uppercase username and its lowercase
companion field. -/
def docOld : Doc :=
  [("username", DVal.str "Old"), ("usernameLowercase", DVal.str "old"),
   ("bio", DVal.str "b")]

/-- A users collection holding only docOld under id u1. -/
def stOld : Store := [("u1", docOld)]

/-- An authorized update request setting username to the empty string. -/
def reqEmptyUsername : Req :=
  { bodyKey := some "dev-seed-key", bodyId := some "u1",
    bodyUpdates := some (.uobj [("username", .str "")]) }

/-- An authorized update request setting username to Foo. -/
def reqFoo : Req :=
  { bodyKey := some "dev-seed-key", bodyId := some "u1",
    bodyUpdates := some (.uobj [("username", .str "Foo")]) }

/-- Claim C1: a request to either endpoint whose supplied secret (as that
endpoint extracts it) is empty or differs from the server key is answered
with status 401 and ok false, and nothing is handed to the storage gateway:
seedData commits no batch and updateUser leaves the users collection
untouched. -/
theorem unauthorized_requests_rejected (K : String) (fk : Faker) (st : Store)
    (req : Req) :
    (seedSecret req = "" ∨ seedSecret req ≠ K →
      (seedData K fk req).status = 401 ∧ (seedData K fk req).ok = false ∧
        (seedData K fk req).batches = []) ∧
    (updSecret req = "" ∨ updSecret req ≠ K →
      (updateUser K st req).status = 401 ∧ (updateUser K st req).ok = false ∧
        (updateUser K st req).store = st ∧
        (updateUser K st req).returnedUser = none) := by
  constructor
  · intro h
    simp [seedData, h]
  · intro h
    simp [updateUser, h]

/-- Witness for claim C1 at a concrete request carrying a wrong key against
the default server key. -/
theorem unauthorized_requests_rejected_witness :
    (seedData "dev-seed-key" fkW { queryKey := some "wrong" }).status = 401 ∧
    (updateUser "dev-seed-key" [] { queryKey := some "wrong" }).status = 401 := by
  have h := unauthorized_requests_rejected "dev-seed-key" fkW []
    { queryKey := some "wrong" }
  exact ⟨(h.1 (by decide)).1, (h.2 (by decide)).1⟩

/-- Counterexample to claim C7: the two endpoints do not share one
precedence.  On a request carrying key "a" in the query and key "b" in the
body, seedData extracts "a" (query first) but updateUser extracts "b" (body
first); with server key "a", a well-formed update request is thus rejected
with 401, although under the claimed query-first precedence it would be
authorized. -/
theorem secret_precedence_counterexample :
    seedSecret { queryKey := some "a", bodyKey := some "b" } = "a" ∧
    updSecret { queryKey := some "a", bodyKey := some "b" } = "b" ∧
    (updateUser "a" [("u1", [("bio", DVal.str "x")])]
        { queryKey := some "a", bodyKey := some "b", bodyId := some "u1",
          bodyUpdates := some (.uobj []) }).status = 401 :=
  ⟨rfl, rfl, rfl⟩

/-- Claim C7 as amended: seedData draws the secret with precedence query
parameter, then x-seed-key header, then body field, first non-empty winning;
updateUser instead draws it with precedence body field, then query
parameter, then header. -/
theorem secret_precedence_per_endpoint (req : Req) :
    seedSecret req =
      (if req.queryKey.getD "" ≠ "" then req.queryKey.getD ""
       else if req.headerSeedKey.getD "" ≠ "" then req.headerSeedKey.getD ""
       else req.bodyKey.getD "") ∧
    updSecret req =
      (if req.bodyKey.getD "" ≠ "" then req.bodyKey.getD ""
       else if req.queryKey.getD "" ≠ "" then req.queryKey.getD ""
       else req.headerSeedKey.getD "") := by
  obtain ⟨qk, hk, bk, _, _, _, _, _, _, _, _, _, _, _, _⟩ := req
  constructor
  · cases qk <;> cases hk <;> cases bk <;>
      simp [seedSecret, firstTruthyStr, Option.getD]
    all_goals intros
    all_goals first
      | rfl
      | (split_ifs <;> simp_all)
      | simp_all
  · cases qk <;> cases hk <;> cases bk <;>
      simp [updSecret, firstTruthyStr, Option.getD]
    all_goals intros
    all_goals first
      | rfl
      | (split_ifs <;> simp_all)
      | simp_all

/-!  Lemmas about the batching loop. -/

/-- The committed batches concatenate, in commit order, to exactly the
submitted ops. -/
theorem commitLoop_flatten (ops : List Op) :
    ∀ batch count, count = batch.length →
      (commitLoop ops batch count).flatten = batch ++ ops := by
  induction ops with
  | nil =>
    intro batch count h
    subst h
    by_cases h0 : 0 < batch.length <;> simp_all [commitLoop]
  | cons op rest ih =>
    intro batch count h
    subst h
    simp only [commitLoop]
    split
    · simp [ih [] 0 rfl]
    · rw [ih (batch ++ [op]) (batch.length + 1) (by simp)]
      simp

/-- Every committed batch holds at most 500 ops. -/
theorem commitLoop_batch_le (ops : List Op) :
    ∀ batch count, count = batch.length → count < 500 →
      ∀ b ∈ commitLoop ops batch count, b.length ≤ 500 := by
  induction ops with
  | nil =>
    intro batch count h hlt b hb
    subst h
    simp only [commitLoop] at hb
    split at hb
    · rw [List.mem_singleton.mp hb]
      omega
    · simp at hb
  | cons op rest ih =>
    intro batch count h hlt b hb
    subst h
    simp only [commitLoop] at hb
    split at hb
    · rcases List.mem_cons.mp hb with hb | hb
      · subst hb
        simp
        omega
      · exact ih [] 0 rfl (by omega) b hb
    · exact ih (batch ++ [op]) (batch.length + 1) (by simp) (by omega) b hb

/-- The number of committed batches is the ceiling of the pending op count
divided by 500. -/
theorem commitLoop_length (ops : List Op) :
    ∀ batch count, count = batch.length → count < 500 →
      (commitLoop ops batch count).length = (count + ops.length + 499) / 500 := by
  induction ops with
  | nil =>
    intro batch count h hlt
    subst h
    by_cases h0 : 0 < batch.length <;> simp_all [commitLoop]
    omega
  | cons op rest ih =>
    intro batch count h hlt
    subst h
    simp only [commitLoop]
    split
    · have hr := ih [] 0 rfl (by omega)
      simp only [List.length_cons, hr]
      omega
    · have hr := ih (batch ++ [op]) (batch.length + 1) (by simp) (by omega)
      simp only [hr]
      simp only [List.length_append, List.length_cons]
      omega

/-- commitBatchOps summary: order-preserving, 500-bounded, ceil-counted. -/
theorem commitBatchOps_spec (ops : List Op) :
    (commitBatchOps ops).flatten = ops ∧
    (∀ b ∈ commitBatchOps ops, b.length ≤ 500) ∧
    (commitBatchOps ops).length = (ops.length + 499) / 500 := by
  refine ⟨?_, ?_, ?_⟩
  · simpa using commitLoop_flatten ops [] 0 rfl
  · exact commitLoop_batch_le ops [] 0 rfl (by omega)
  · simpa using commitLoop_length ops [] 0 rfl (by omega)

/-!  Lemmas about the generated entity lists. -/

/-- The users array has exactly the effective user count. -/
theorem seedUsers_length (fk : Faker) (req : Req) :
    (seedUsers fk req).length = effUsers req := by
  simp [seedUsers]

/-- The artists array has exactly the effective artist count. -/
theorem seedArtists_length (fk : Faker) (req : Req) :
    (seedArtists fk req).length = effArtists req := by
  simp [seedArtists]

/-- Sum of a constant list over a range. -/
theorem sum_const_range (A P : Nat) :
    ((List.range A).map (fun _ => P)).sum = A * P := by
  induction A with
  | zero => simp
  | succ n ih =>
    rw [List.range_succ]
    simp [ih]
    ring

/-- The albums array has artists times albums-per-artist entries. -/
theorem seedAlbums_length (fk : Faker) (req : Req) :
    (seedAlbums fk req).length = effArtists req * effAlbumsPerArtist req := by
  simp only [seedAlbums, List.length_flatMap, Function.comp_def, List.length_map,
    List.length_range]
  exact sum_const_range _ _

/-- A successful mapOptM preserves the length. -/
theorem mapOptM_length {α β : Type} (f : α → Option β) :
    ∀ (l : List α) (l2 : List β), mapOptM f l = some l2 → l2.length = l.length := by
  intro l
  induction l with
  | nil =>
    intro l2 h
    simp only [mapOptM, Option.some_inj] at h
    subst h
    rfl
  | cons a t ih =>
    intro l2 h
    simp only [mapOptM] at h
    rcases hfa : f a with _ | b <;> rw [hfa] at h
    · simp at h
    · rcases hmt : mapOptM f t with _ | bs <;> rw [hmt] at h
      · simp at h
      · simp only [Option.some_inj] at h
        subst h
        simp [ih bs hmt]

/-- Every element of a successful mapOptM comes from some source element. -/
theorem mapOptM_mem {α β : Type} (f : α → Option β) :
    ∀ (l : List α) (l2 : List β), mapOptM f l = some l2 →
      ∀ b ∈ l2, ∃ a ∈ l, f a = some b := by
  intro l
  induction l with
  | nil =>
    intro l2 h b hb
    simp only [mapOptM, Option.some_inj] at h
    subst h
    simp at hb
  | cons a t ih =>
    intro l2 h b hb
    simp only [mapOptM] at h
    rcases hfa : f a with _ | b1 <;> rw [hfa] at h
    · simp at h
    · rcases hmt : mapOptM f t with _ | bs <;> rw [hmt] at h
      · simp at h
      · simp only [Option.some_inj] at h
        subst h
        rcases List.mem_cons.mp hb with hb | hb
        · exact ⟨a, List.mem_cons_self a t, by rw [hfa, hb]⟩
        · obtain ⟨a2, ha2, hfa2⟩ := ih bs hmt b hb
          exact ⟨a2, List.mem_cons_of_mem a ha2, hfa2⟩

/-- A successful arrayElement call returns a member of the array. -/
theorem arrayElement_mem {α : Type} (l : List α) (k : Nat) (a : α)
    (h : arrayElement l k = some a) : a ∈ l :=
  List.get?_mem h

/-- A successful reviews loop produces users times reviews-per-user
reviews. -/
theorem genReviewsAux_length (fk : Faker) (albums : List Album) (R : Nat) :
    ∀ (users : List User) (ui : Nat) (rs : List Review),
      genReviewsAux fk albums R users ui = some rs →
      rs.length = users.length * R := by
  intro users
  induction users with
  | nil =>
    intro ui rs h
    simp only [genReviewsAux, Option.some_inj] at h
    subst h
    simp
  | cons u t ih =>
    intro ui rs h
    simp only [genReviewsAux] at h
    rcases hm : userReviews fk albums R u ui with _ | mine <;> rw [hm] at h
    · simp at h
    · rcases hl : genReviewsAux fk albums R t (ui + 1) with _ | later <;>
        rw [hl] at h
      · simp at h
      · simp only [Option.some_inj] at h
        subst h
        have h1 : mine.length = R := by
          have := mapOptM_length _ _ _ hm
          simpa using this
        have h2 := ih (ui + 1) later hl
        simp only [List.length_append, List.length_cons, h1, h2]
        ring

/-- Every review of a successful reviews loop references a user of the
iterated pool and an album of the pool it picks from. -/
theorem genReviewsAux_mem (fk : Faker) (albums : List Album) (R : Nat) :
    ∀ (users : List User) (ui : Nat) (rs : List Review),
      genReviewsAux fk albums R users ui = some rs →
      ∀ rv ∈ rs, (∃ u ∈ users, rv.userId = u.id) ∧
        ∃ al ∈ albums, rv.albumId = al.id := by
  intro users
  induction users with
  | nil =>
    intro ui rs h rv hrv
    simp only [genReviewsAux, Option.some_inj] at h
    subst h
    simp at hrv
  | cons u t ih =>
    intro ui rs h rv hrv
    simp only [genReviewsAux] at h
    rcases hm : userReviews fk albums R u ui with _ | mine <;> rw [hm] at h
    · simp at h
    · rcases hl : genReviewsAux fk albums R t (ui + 1) with _ | later <;>
        rw [hl] at h
      · simp at h
      · simp only [Option.some_inj] at h
        subst h
        rcases List.mem_append.mp hrv with hrv | hrv
        · obtain ⟨r, _, hr⟩ := mapOptM_mem _ _ _ hm rv hrv
          rcases hae : arrayElement albums (fk.pick (ui * R + r)) with _ | al <;>
            rw [hae] at hr
          · simp at hr
          · simp at hr
            subst hr
            exact ⟨⟨u, List.mem_cons_self u t, rfl⟩,
              al, arrayElement_mem _ _ _ hae, rfl⟩
        · obtain ⟨hu, hal⟩ := ih (ui + 1) later hl rv hrv
          obtain ⟨u2, hu2, he⟩ := hu
          exact ⟨⟨u2, List.mem_cons_of_mem u hu2, he⟩, hal⟩

/-- The ops array counts one op per generated entity. -/
theorem seedOps_length (users : List User) (artists : List Artist)
    (albums : List Album) (reviews : List Review) :
    (seedOps users artists albums reviews).length =
      users.length + artists.length + albums.length + reviews.length := by
  simp [seedOps]
  omega

/-- Characterization of a seed run that answered 200: the reviews loop
succeeded and the response is built from the generated arrays and the
batched ops. -/
theorem seedData_success (K : String) (fk : Faker) (req : Req)
    (h : (seedData K fk req).status = 200) :
    ∃ rs, seedReviews fk req = some rs ∧
      seedData K fk req =
        { status := 200
          ok := true
          counts := some ⟨(seedUsers fk req).length, (seedArtists fk req).length,
            (seedAlbums fk req).length, rs.length⟩
          batches := commitBatchOps (seedOps (seedUsers fk req)
            (seedArtists fk req) (seedAlbums fk req) rs) } := by
  by_cases hk : seedSecret req = "" ∨ seedSecret req ≠ K
  · simp [seedData, hk] at h
  · rcases hrs : seedReviews fk req with _ | rs
    · simp [seedData, hk, hrs] at h
    · exact ⟨rs, rfl, by simp [seedData, hk, hrs]⟩

/-- Claim C3: a seed run that answers 200 with effective counts U users, A
artists, P albums per artist and R reviews per user hands the storage
gateway exactly U + A + A*P + U*R set-with-merge writes, grouped in commit
order into batches of at most 500 ops whose concatenation is exactly the ops
array (so the partially filled final batch is committed too), and the number
of batch commits is the ceiling of the total over 500, written here as
division after adding 499. -/
theorem seed_batching (K : String) (fk : Faker) (req : Req)
    (h : (seedData K fk req).status = 200) :
    (seedData K fk req).batches.flatten.length = seedTotalOps req ∧
    (∀ b ∈ (seedData K fk req).batches, b.length ≤ 500) ∧
    (∀ op ∈ (seedData K fk req).batches.flatten, op.mode = WriteMode.setMerge) ∧
    (seedData K fk req).batches.length = (seedTotalOps req + 499) / 500 := by
  obtain ⟨rs, hrs, heq⟩ := seedData_success K fk req h
  have hops := commitBatchOps_spec (seedOps (seedUsers fk req)
    (seedArtists fk req) (seedAlbums fk req) rs)
  have hlen : (seedOps (seedUsers fk req) (seedArtists fk req)
      (seedAlbums fk req) rs).length = seedTotalOps req := by
    rw [seedOps_length, seedUsers_length, seedArtists_length, seedAlbums_length]
    have hr := genReviewsAux_length fk (seedAlbums fk req)
      (effReviewsPerUser req) (seedUsers fk req) 0 rs hrs
    rw [hr, seedUsers_length]
    rfl
  refine ⟨?_, ?_, ?_, ?_⟩
  · rw [heq]
    simpa [hops.1] using hlen
  · rw [heq]
    exact hops.2.1
  · rw [heq]
    intro op hop
    rw [hops.1] at hop
    simp only [seedOps, List.mem_append, List.mem_map] at hop
    rcases hop with ((⟨u, _, hu⟩ | ⟨a, _, ha⟩) | ⟨al, _, hal⟩) | ⟨p, _, hp⟩
    · rw [← hu]
    · rw [← ha]
    · rw [← hal]
    · rw [← hp]
  · rw [heq]
    simp only [hops.2.2, hlen]

/-- Witness for claim C3 on a concrete authorized request (two users, one
artist, two albums per artist, one review per user: seven ops, one batch). -/
theorem seed_batching_witness :
    (seedData "k" fkW { queryKey := some "k", queryUsers := some "2",
                        queryArtists := some "1", queryAlbumsPerArtist := some "2",
                        queryReviewsPerUser := some "1" }).batches.length = 1 ∧
    (seedData "k" fkW { queryKey := some "k", queryUsers := some "2",
                        queryArtists := some "1", queryAlbumsPerArtist := some "2",
                        queryReviewsPerUser := some "1" }).batches.flatten.length = 7 := by
  have h := seed_batching "k" fkW { queryKey := some "k", queryUsers := some "2",
                                    queryArtists := some "1",
                                    queryAlbumsPerArtist := some "2",
                                    queryReviewsPerUser := some "1" } (by rfl)
  refine ⟨h.2.2.2.trans (by decide), h.1.trans (by decide)⟩

/-- Case split on a seed run: either nothing is committed (401 or 500), or
the run succeeded and the batches are exactly the batched ops array. -/
theorem seedData_batches_cases (K : String) (fk : Faker) (req : Req) :
    (seedData K fk req).batches = [] ∨
    ∃ rs, seedReviews fk req = some rs ∧
      (seedData K fk req).batches =
        commitBatchOps (seedOps (seedUsers fk req) (seedArtists fk req)
          (seedAlbums fk req) rs) := by
  by_cases hk : seedSecret req = "" ∨ seedSecret req ≠ K
  · left
    simp [seedData, hk]
  · rcases hrs : seedReviews fk req with _ | rs
    · left
      simp [seedData, hk, hrs]
    · right
      exact ⟨rs, rfl, by simp [seedData, hk, hrs]⟩

/-- Every committed op aimed at the users collection is the payload of a
generated user of the same run. -/
theorem seed_users_ops_payload (K : String) (fk : Faker) (req : Req) :
    ∀ op ∈ (seedData K fk req).batches.flatten, op.ref.coll = "users" →
      ∃ u ∈ seedUsers fk req, op.data = userPayload u := by
  intro op hop hcoll
  rcases seedData_batches_cases K fk req with hb | ⟨rs, _, hb⟩
  · rw [hb] at hop
    simp at hop
  · rw [hb, (commitBatchOps_spec _).1] at hop
    simp only [seedOps, List.mem_append, List.mem_map] at hop
    rcases hop with ((⟨u, hu, hops⟩ | ⟨a, _, hops⟩) | ⟨al, _, hops⟩) | ⟨p, _, hops⟩
    · exact ⟨u, hu, by rw [← hops]⟩
    · rw [← hops] at hcoll
      simp [DocRef.coll] at hcoll
    · rw [← hops] at hcoll
      simp [DocRef.coll] at hcoll
    · rw [← hops] at hcoll
      simp [DocRef.coll] at hcoll

/-- Claim C4: every user generated by a seed run has its lowercase fields
equal to the lowercase of their source fields, both on the in-memory object
and on every persisted users-collection payload. -/
theorem user_lowercase_invariant (K : String) (fk : Faker) (req : Req) :
    (∀ i : Nat, (makeFakeUser fk i).usernameLowercase =
        jsToLower (makeFakeUser fk i).username ∧
      (makeFakeUser fk i).nameLowercase = jsToLower (makeFakeUser fk i).name) ∧
    (∀ op ∈ (seedData K fk req).batches.flatten, op.ref.coll = "users" →
      lowerNormalized op.data) := by
  constructor
  · intro i
    exact ⟨rfl, rfl⟩
  · intro op hop hcoll
    obtain ⟨u, hu, hdata⟩ := seed_users_ops_payload K fk req op hop hcoll
    simp only [seedUsers, List.mem_map] at hu
    obtain ⟨i, _, hui⟩ := hu
    subst hui
    constructor
    · intro s hs
      rw [hdata] at hs ⊢
      simp only [userPayload, getField, alookup] at hs ⊢
      simp only [reduceIte, Option.some_inj] at hs ⊢
      cases hs
      rfl
    · intro s hs
      rw [hdata] at hs ⊢
      simp only [userPayload, getField, alookup] at hs ⊢
      simp only [reduceIte, Option.some_inj] at hs ⊢
      cases hs
      rfl

/-- Witness for claim C4: the single users-collection write of a one-user
seed run satisfies the lowercase invariant, evaluated on the concrete oracle
(raw username Ab-C0, so username abc0). -/
theorem user_lowercase_invariant_witness :
    getField (userPayload (makeFakeUser fkW 0)) "usernameLowercase" =
      some (DVal.str "abc0") := by
  have hflat : (seedData "dev-seed-key" fkW reqSmall).batches.flatten =
      [⟨DocRef.named "users" (fkW.uuid 0), WriteMode.setMerge,
        userPayload (makeFakeUser fkW 0)⟩] := rfl
  have hmem : (⟨DocRef.named "users" (fkW.uuid 0), WriteMode.setMerge,
      userPayload (makeFakeUser fkW 0)⟩ : Op) ∈
      (seedData "dev-seed-key" fkW reqSmall).batches.flatten := by
    rw [hflat]
    exact List.mem_singleton.mpr rfl
  have h := (user_lowercase_invariant "dev-seed-key" fkW reqSmall).2 _ hmem rfl
  have h1 := h.1 "abc0" (by rfl)
  exact h1.trans (by rfl)

/-- Counterexample to claim C9: the payload persisted for a user by the seed
endpoint does not carry an update timestamp at all.  On a concrete one-user
run the single users-collection write has createdAt but its updatedAt field
is absent (the in-memory object built by makeFakeUser does carry updatedAt,
but the handler builds a fresh payload literal without it). -/
theorem user_payload_no_updatedAt_counterexample :
    ((seedData "dev-seed-key" fkW reqSmall).batches.flatten.head?).map
        (fun op => getField op.data "updatedAt") = some none ∧
    ((seedData "dev-seed-key" fkW reqSmall).batches.flatten.head?).map
        (fun op => getField op.data "createdAt") = some (some DVal.svrTime) ∧
    getField (userPayload (makeFakeUser fkW 0)) "updatedAt" = none ∧
    (makeFakeUser fkW 0).updatedAt = DVal.svrTime :=
  ⟨rfl, rfl, rfl, rfl⟩

/-- Claim C9 as amended: every users-collection payload persisted by the
seed endpoint duplicates the avatar URL under profileImageUrl and avatarUrl,
holds zero in all four follower and following counters, and carries a
server-assigned creation timestamp; it carries no update timestamp (the
updatedAt field of the generated in-memory user is dropped from the
persisted payload). -/
theorem user_payload_shape (K : String) (fk : Faker) (req : Req) :
    ∀ op ∈ (seedData K fk req).batches.flatten, op.ref.coll = "users" →
      getField op.data "avatarUrl" = getField op.data "profileImageUrl" ∧
      (getField op.data "profileImageUrl").isSome = true ∧
      getField op.data "followers" = some (DVal.num 0) ∧
      getField op.data "followersCount" = some (DVal.num 0) ∧
      getField op.data "following" = some (DVal.num 0) ∧
      getField op.data "followingCount" = some (DVal.num 0) ∧
      getField op.data "createdAt" = some DVal.svrTime ∧
      getField op.data "updatedAt" = none := by
  intro op hop hcoll
  obtain ⟨u, hu, hdata⟩ := seed_users_ops_payload K fk req op hop hcoll
  simp only [seedUsers, List.mem_map] at hu
  obtain ⟨i, _, hui⟩ := hu
  subst hui
  rw [hdata]
  refine ⟨?_, ?_, ?_, ?_, ?_, ?_, ?_, ?_⟩ <;> rfl

/-- Witness for claim C9 at the single write of a concrete one-user run. -/
theorem user_payload_shape_witness :
    getField (userPayload (makeFakeUser fkW 0)) "avatarUrl" =
      getField (userPayload (makeFakeUser fkW 0)) "profileImageUrl" ∧
    getField (userPayload (makeFakeUser fkW 0)) "updatedAt" = none := by
  have hflat : (seedData "dev-seed-key" fkW reqSmall).batches.flatten =
      [⟨DocRef.named "users" (fkW.uuid 0), WriteMode.setMerge,
        userPayload (makeFakeUser fkW 0)⟩] := rfl
  have hmem : (⟨DocRef.named "users" (fkW.uuid 0), WriteMode.setMerge,
      userPayload (makeFakeUser fkW 0)⟩ : Op) ∈
      (seedData "dev-seed-key" fkW reqSmall).batches.flatten := by
    rw [hflat]
    exact List.mem_singleton.mpr rfl
  have h := user_payload_shape "dev-seed-key" fkW reqSmall _ hmem rfl
  exact ⟨h.1, h.2.2.2.2.2.2.2⟩

/-- Every committed op aimed at the reviews collection is the document of a
review of the successful reviews loop of the same run. -/
theorem seed_reviews_ops (K : String) (fk : Faker) (req : Req) :
    ∀ op ∈ (seedData K fk req).batches.flatten, op.ref.coll = "reviews" →
      ∃ rs, seedReviews fk req = some rs ∧
        ∃ rv ∈ rs, op.data = reviewDoc rv := by
  intro op hop hcoll
  rcases seedData_batches_cases K fk req with hb | ⟨rs, hrs, hb⟩
  · rw [hb] at hop
    simp at hop
  · rw [hb, (commitBatchOps_spec _).1] at hop
    simp only [seedOps, List.mem_append, List.mem_map] at hop
    rcases hop with ((⟨u, _, hops⟩ | ⟨a, _, hops⟩) | ⟨al, _, hops⟩) | ⟨p, hp, hops⟩
    · rw [← hops] at hcoll
      simp [DocRef.coll] at hcoll
    · rw [← hops] at hcoll
      simp [DocRef.coll] at hcoll
    · rw [← hops] at hcoll
      simp [DocRef.coll] at hcoll
    · refine ⟨rs, hrs, p.2, ?_, by rw [← hops]⟩
      exact List.getElem?_mem (List.mem_enum_iff_getElem?.mp hp)

/-- Claim C8: every review written by a seed run references the id of a user
generated in the same run and the id of an album of the album pool generated
in the same run; the pick is an arbitrary oracle index reduced modulo the
pool size, so on every in-range index the full pool is selectable
(arrayElement returns exactly the album at that position). -/
theorem review_references (K : String) (fk : Faker) (req : Req) :
    (∀ op ∈ (seedData K fk req).batches.flatten, op.ref.coll = "reviews" →
      getField op.data "userId" ∈
        (seedUsers fk req).map (fun u => some (DVal.str u.id)) ∧
      getField op.data "albumId" ∈
        (seedAlbums fk req).map (fun al => some (DVal.num al.id))) ∧
    (∀ k, k < (seedAlbums fk req).length →
      arrayElement (seedAlbums fk req) k = (seedAlbums fk req).get? k) := by
  constructor
  · intro op hop hcoll
    obtain ⟨rs, hrs, rv, hrv, hdata⟩ := seed_reviews_ops K fk req op hop hcoll
    obtain ⟨⟨u, hu, hue⟩, al, hal, hale⟩ :=
      genReviewsAux_mem fk (seedAlbums fk req) (effReviewsPerUser req)
        (seedUsers fk req) 0 rs hrs rv hrv
    constructor
    · rw [hdata]
      have : getField (reviewDoc rv) "userId" = some (DVal.str rv.userId) := rfl
      rw [this, hue]
      exact List.mem_map.mpr ⟨u, hu, rfl⟩
    · rw [hdata]
      have : getField (reviewDoc rv) "albumId" = some (DVal.num rv.albumId) := rfl
      rw [this, hale]
      exact List.mem_map.mpr ⟨al, hal, rfl⟩
  · intro k hk
    unfold arrayElement
    rw [Nat.mod_eq_of_lt hk]

/-- Witness for claim C8 on a concrete run with one user, one artist, one
album and one review: the written review references user-0 and album 10000,
and the single album is selectable. -/
theorem review_references_witness :
    some (DVal.str "user-0") ∈
      (seedUsers fkW reqOneEach).map (fun u => some (DVal.str u.id)) ∧
    some (DVal.num 10000) ∈
      (seedAlbums fkW reqOneEach).map (fun al => some (DVal.num al.id)) ∧
    arrayElement (seedAlbums fkW reqOneEach) 0 = (seedAlbums fkW reqOneEach).get? 0 := by
  have h := review_references "dev-seed-key" fkW reqOneEach
  have hflat : (seedData "dev-seed-key" fkW reqOneEach).batches.flatten =
      [⟨DocRef.named "users" (fkW.uuid 0), WriteMode.setMerge,
        userPayload (makeFakeUser fkW 0)⟩,
       ⟨DocRef.named "artists" "1000", WriteMode.setMerge,
        artistDoc (makeFakeArtist fkW 0)⟩,
       ⟨DocRef.named "albums" "10000", WriteMode.setMerge,
        albumDoc (makeFakeAlbum fkW 0 (makeFakeArtist fkW 0))⟩,
       ⟨DocRef.auto "reviews" 0, WriteMode.setMerge,
        reviewDoc (makeFakeReview fkW 0 (fkW.uuid 0) (fkW.albumId 0))⟩] := rfl
  have hmem : (⟨DocRef.auto "reviews" 0, WriteMode.setMerge,
      reviewDoc (makeFakeReview fkW 0 (fkW.uuid 0) (fkW.albumId 0))⟩ : Op) ∈
      (seedData "dev-seed-key" fkW reqOneEach).batches.flatten := by
    rw [hflat]
    simp
  have h1 := h.1 _ hmem rfl
  refine ⟨?_, ?_, h.2 0 (by decide)⟩
  · have heq : getField (reviewDoc (makeFakeReview fkW 0 (fkW.uuid 0)
        (fkW.albumId 0))) "userId" = some (DVal.str "user-0") := rfl
    exact heq ▸ h1.1
  · have heq : getField (reviewDoc (makeFakeReview fkW 0 (fkW.uuid 0)
        (fkW.albumId 0))) "albumId" = some (DVal.num 10000) := rfl
    exact heq ▸ h1.2

/-- Packing a small scalar value into a character and back. -/
theorem toNat_ofNat_lt (n : Nat) (h : n < 55296) : (Char.ofNat n).toNat = n := by
  rw [Char.ofNat, dif_pos (Or.inl h : Nat.isValidChar n)]
  simp [Char.ofNatAux, Char.toNat, UInt32.toNat]

/-- Lowering an ASCII uppercase letter adds 32 to its code. -/
theorem toLower_toNat (c : Char) (h : 65 ≤ c.toNat ∧ c.toNat ≤ 90) :
    (Char.toLower c).toNat = c.toNat + 32 := by
  rw [Char.toLower]
  simp only [ge_iff_le]
  rw [if_pos ⟨h.1, h.2⟩]
  exact toNat_ofNat_lt _ (by omega)

/-- Lowering any character that is not an ASCII uppercase letter is the
identity. -/
theorem toLower_eq_self (c : Char) (h : ¬(65 ≤ c.toNat ∧ c.toNat ≤ 90)) :
    Char.toLower c = c := by
  rw [Char.toLower]
  simp only [ge_iff_le]
  rw [if_neg h]

/-- Lowering a word character yields a lowercase word character. -/
theorem wordChar_toLower_lower (c : Char) (h : isWordChar c = true) :
    isLowerWordChar (Char.toLower c) = true := by
  simp only [isWordChar, Bool.or_eq_true, Bool.and_eq_true, decide_eq_true_eq,
    beq_iff_eq] at h
  by_cases hu : 65 ≤ c.toNat ∧ c.toNat ≤ 90
  · have ht := toLower_toNat c hu
    simp only [isLowerWordChar, Bool.or_eq_true, Bool.and_eq_true,
      decide_eq_true_eq, beq_iff_eq, ht]
    omega
  · rw [toLower_eq_self c hu]
    simp only [isLowerWordChar, Bool.or_eq_true, Bool.and_eq_true,
      decide_eq_true_eq, beq_iff_eq]
    omega

/-- Lowering is idempotent. -/
theorem toLower_idem (c : Char) :
    Char.toLower (Char.toLower c) = Char.toLower c := by
  by_cases hu : 65 ≤ c.toNat ∧ c.toNat ≤ 90
  · exact toLower_eq_self _ (by rw [toLower_toNat c hu]; omega)
  · rw [toLower_eq_self c hu, toLower_eq_self c hu]

/-- Claim C10: the username of every generated user consists only of
lowercase ASCII letters, digits and underscores (the raw faker username is
stripped of every other character and lowercased at generation), and as a
consequence username equals usernameLowercase on every generated user. -/
theorem username_lower_wordchars (fk : Faker) (i : Nat) :
    (∀ c ∈ (makeFakeUser fk i).username.data, isLowerWordChar c = true) ∧
    (makeFakeUser fk i).username = (makeFakeUser fk i).usernameLowercase := by
  constructor
  · intro c hc
    have hc2 : c ∈ ((fk.rawUsername i).data.filter isWordChar).map Char.toLower := hc
    obtain ⟨c0, hc0, hlc⟩ := List.mem_map.mp hc2
    rw [← hlc]
    exact wordChar_toLower_lower c0 (List.of_mem_filter hc0)
  · show jsToLower (stripNonWord (fk.rawUsername i)) =
      jsToLower (jsToLower (stripNonWord (fk.rawUsername i)))
    simp only [jsToLower, stripNonWord, List.map_map]
    congr 1
    exact (List.map_congr_left (fun c _ => (toLower_idem c).symm))

/-- Witness for claim C10 on the concrete oracle: raw username Ab-C0 becomes
abc0, equal to its lowercase, and its first character is a lowercase word
character. -/
theorem username_lower_wordchars_witness :
    (makeFakeUser fkW 0).username = (makeFakeUser fkW 0).usernameLowercase ∧
    isLowerWordChar 'a' = true := by
  have h := username_lower_wordchars fkW 0
  refine ⟨h.2, h.1 'a' ?_⟩
  show 'a' ∈ (makeFakeUser fkW 0).username.data
  have : (makeFakeUser fkW 0).username = "abc0" := rfl
  rw [this]
  decide

/-- Counterexample to claim C2 in three parts.  Non-numeric input does not
fall back to the default: with users=abc the run succeeds with zero users
(Number gives NaN and the loop runs zero times), not the claimed default 20.
There is no lower clamp to 1: users=0 yields zero users, not clamp(0,1..500)
= 1.  And albumsPerArtist is read from the query only: a body value of 10 is
ignored and the default 3 is used, so one artist yields 3 albums, not 10. -/
theorem seed_counts_counterexample :
    (seedData "dev-seed-key" fkW reqNaNUsers).status = 200 ∧
    (seedData "dev-seed-key" fkW reqNaNUsers).counts.map Counts.users = some 0 ∧
    (seedData "dev-seed-key" fkW reqZeroUsers).counts.map Counts.users = some 0 ∧
    (seedData "dev-seed-key" fkW reqBodyAlbums).counts.map Counts.albums = some 3 ∧
    (0 : Nat) ≠ 20 ∧ (0 : Nat) ≠ 1 ∧ (3 : Nat) ≠ 10 :=
  ⟨rfl, rfl, rfl, rfl, by decide, by decide, by decide⟩

/-- Claim C2 as amended: the users and artists counts are computed from the
query value, falling back to the body value and then to the defaults 20 and
8; albumsPerArtist and reviewsPerUser are computed from the query value only
with defaults 3 and 2 (their body values are ignored); each effective count
is min(value, cap) with caps 500, 200, 20, 20 and no lower clamp; and a
non-numeric value yields NaN, for which the generation loop runs zero times
instead of using the default. -/
theorem seed_counts_amended (K : String) (fk : Faker) (req : Req) :
    (∀ nU nA nP nR : Int, toNumber (rawUsers req) = some nU →
      toNumber (rawArtists req) = some nA →
      toNumber (rawAlbumsPerArtist req) = some nP →
      toNumber (rawReviewsPerUser req) = some nR →
      (seedData K fk req).status = 200 →
      (seedData K fk req).counts = some
        ⟨(min nU 500).toNat, (min nA 200).toNat,
         (min nA 200).toNat * (min nP 20).toNat,
         (min nU 500).toNat * (min nR 20).toNat⟩) ∧
    (toNumber (rawUsers req) = none → effUsers req = 0) ∧
    (toNumber (rawArtists req) = none → effArtists req = 0) ∧
    (toNumber (rawAlbumsPerArtist req) = none → effAlbumsPerArtist req = 0) ∧
    (toNumber (rawReviewsPerUser req) = none → effReviewsPerUser req = 0) ∧
    (req.queryUsers = none → req.bodyUsers = none → rawUsers req = .num 20) ∧
    (req.queryArtists = none → req.bodyArtists = none → rawArtists req = .num 8) ∧
    (req.queryAlbumsPerArtist = none → rawAlbumsPerArtist req = .num 3) ∧
    (req.queryReviewsPerUser = none → rawReviewsPerUser req = .num 2) := by
  refine ⟨?_, ?_, ?_, ?_, ?_, ?_, ?_, ?_, ?_⟩
  · intro nU nA nP nR hU hA hP hR h200
    obtain ⟨rs, hrs, heq⟩ := seedData_success K fk req h200
    have hU2 : effUsers req = (min nU 500).toNat := by
      simp [effUsers, usersCount, jsMinNaN, hU, loopIters]
    have hA2 : effArtists req = (min nA 200).toNat := by
      simp [effArtists, artistsCount, jsMinNaN, hA, loopIters]
    have hP2 : effAlbumsPerArtist req = (min nP 20).toNat := by
      simp [effAlbumsPerArtist, albumsPerArtist, jsMinNaN, hP, loopIters]
    have hR2 : effReviewsPerUser req = (min nR 20).toNat := by
      simp [effReviewsPerUser, reviewsPerUser, jsMinNaN, hR, loopIters]
    have hrl : rs.length = (min nU 500).toNat * (min nR 20).toNat := by
      rw [genReviewsAux_length fk (seedAlbums fk req) (effReviewsPerUser req)
        (seedUsers fk req) 0 rs hrs, seedUsers_length, hU2, hR2]
    rw [heq]
    simp only [seedUsers_length, seedArtists_length, seedAlbums_length,
      hU2, hA2, hP2, hrl]
  · intro h
    simp [effUsers, usersCount, jsMinNaN, h, loopIters]
  · intro h
    simp [effArtists, artistsCount, jsMinNaN, h, loopIters]
  · intro h
    simp [effAlbumsPerArtist, albumsPerArtist, jsMinNaN, h, loopIters]
  · intro h
    simp [effReviewsPerUser, reviewsPerUser, jsMinNaN, h, loopIters]
  · intro h1 h2
    simp [rawUsers, h1, h2, jsOr]
  · intro h1 h2
    simp [rawArtists, h1, h2, jsOr]
  · intro h1
    simp [rawAlbumsPerArtist, h1, jsOr]
  · intro h1
    simp [rawReviewsPerUser, h1, jsOr]

/-- Witness for claim C2 on a concrete authorized request with numeric
counts users=7, artists=4, albumsPerArtist=1, reviewsPerUser=0. -/
theorem seed_counts_amended_witness :
    (seedData "dev-seed-key" fkW reqNumeric).counts = some ⟨7, 4, 4, 0⟩ := by
  have h := (seed_counts_amended "dev-seed-key" fkW reqNumeric).1
    7 4 1 0 rfl rfl rfl rfl rfl
  exact h.trans (by decide)

/-- Counterexample to claim C6: a request with a missing id whose key is
also invalid is answered 401, not 400, because the authorization check runs
before validation. -/
theorem update_validation_counterexample :
    (updateUser "dev-seed-key" [] reqBadKeyNoId).status = 401 ∧
    (401 : Nat) ≠ 400 :=
  ⟨rfl, by decide⟩

/-- Claim C6 as amended: for every updateUser request that passes the
authorization check, if id is missing, or updates is missing, or every
effective updates value is not a non-null object, the response is 400 with
ok false and nothing is written to the storage gateway. -/
theorem update_validation (K : String) (st : Store) (req : Req)
    (hk1 : updSecret req = K) (hk2 : K ≠ "")
    (h : (req.bodyId = none ∧ req.queryId = none) ∨
      (req.bodyUpdates = none ∧ req.queryUpdates = none) ∨
      (∀ u, effUpdates req = some u → isNonNullObject u = false)) :
    (updateUser K st req).status = 400 ∧ (updateUser K st req).ok = false ∧
    (updateUser K st req).store = st ∧
    (updateUser K st req).returnedUser = none := by
  have hcond : ¬(updSecret req = "" ∨ updSecret req ≠ K) := by
    rw [hk1]
    simp [hk2]
  have hvalid : updValid (effId req) (effUpdates req) = false := by
    rcases h with ⟨h1, h2⟩ | ⟨h1, h2⟩ | h3
    · have he : effId req = none := by simp [effId, h1, h2, jsOrStrOpt]
      simp [updValid, he, idFalsy]
    · have he : effUpdates req = none := by simp [effUpdates, h1, h2, jsOrUpd]
      simp [updValid, he, updFalsy]
    · rcases he : effUpdates req with _ | u
      · simp [updValid, he, updFalsy]
      · have hobj := h3 u he
        rcases u with fs | v
        · simp [isNonNullObject] at hobj
        · by_cases ht : jvTruthy v = true
          · rcases v with s | n | b | _
            · simp [updValid, he, updFalsy, updTruthy, typeofObject]
            · simp [updValid, he, updFalsy, updTruthy, typeofObject]
            · simp [updValid, he, updFalsy, updTruthy, typeofObject]
            · simp [jvTruthy] at ht
          · have ht2 : jvTruthy v = false := by
              cases hvt : jvTruthy v
              · rfl
              · exact absurd hvt ht
            simp [updValid, he, updFalsy, updTruthy, ht2]
  simp [updateUser, hcond, hvalid]

/-- Witness for claim C6: an authorized update request lacking the id is
answered 400 with nothing written. -/
theorem update_validation_witness :
    (updateUser "dev-seed-key" [] reqMissingId).status = 400 ∧
    (updateUser "dev-seed-key" [] reqMissingId).store = [] := by
  have h := update_validation "dev-seed-key" [] reqMissingId rfl (by decide)
    (Or.inl ⟨rfl, rfl⟩)
  exact ⟨h.1, h.2.2.1⟩

/-!  Association-list lemmas for the update semantics. -/

/-- Reading back the key just set. -/
theorem alookup_aset_self {β : Type} (es : List (String × β)) (k : String)
    (v : β) : alookup (aset es k v) k = some v := by
  induction es with
  | nil => simp [aset, alookup]
  | cons e rest ih =>
    obtain ⟨k1, v1⟩ := e
    by_cases h : k1 = k <;> simp [aset, alookup, h, ih]

/-- Setting a key does not change the other keys. -/
theorem alookup_aset_ne {β : Type} (es : List (String × β)) (k k1 : String)
    (v : β) (h : k1 ≠ k) : alookup (aset es k v) k1 = alookup es k1 := by
  have hne : ¬k = k1 := fun he => h he.symm
  induction es with
  | nil => simp [aset, alookup, hne]
  | cons e rest ih =>
    obtain ⟨k2, v2⟩ := e
    by_cases hk : k2 = k
    · simp [aset, alookup, hk, hne]
    · by_cases h3 : k2 = k1
      · have hk1 : ¬k1 = k := by
          rw [← h3]
          exact hk
        simp [aset, alookup, hk, h3, hk1, ih, hne]
      · simp [aset, alookup, hk, h3, ih, hne]

/-- A key is absent from an association list iff the lookup fails. -/
theorem alookup_eq_none {β : Type} (es : List (String × β)) (k : String) :
    alookup es k = none ↔ k ∉ es.map Prod.fst := by
  induction es with
  | nil => simp [alookup]
  | cons e rest ih =>
    obtain ⟨k1, v1⟩ := e
    simp only [alookup, List.map_cons, List.mem_cons]
    by_cases h : k1 = k
    · subst h
      simp
    · rw [if_neg h, ih]
      constructor
      · intro hn
        rw [not_or]
        exact ⟨fun he => h he.symm, hn⟩
      · intro hn
        rw [not_or] at hn
        exact hn.2

/-- Membership among the keys after a set. -/
theorem mem_keys_aset {β : Type} (es : List (String × β)) (k k2 : String)
    (v : β) : k2 ∈ (aset es k v).map Prod.fst ↔
      k2 ∈ es.map Prod.fst ∨ k2 = k := by
  induction es with
  | nil => simp [aset]
  | cons e rest ih =>
    obtain ⟨k1, v1⟩ := e
    by_cases h : k1 = k
    · rw [show aset ((k1, v1) :: rest) k v =
        if k1 = k then (k, v) :: rest else (k1, v1) :: aset rest k v from rfl]
      rw [if_pos h, h]
      simp only [List.map_cons, List.mem_cons]
      tauto
    · rw [show aset ((k1, v1) :: rest) k v =
        if k1 = k then (k, v) :: rest else (k1, v1) :: aset rest k v from rfl]
      rw [if_neg h]
      simp only [List.map_cons, List.mem_cons, ih]
      tauto

/-- Setting a key preserves key distinctness. -/
theorem nodup_keys_aset {β : Type} (es : List (String × β)) (k : String)
    (v : β) (h : (es.map Prod.fst).Nodup) :
    ((aset es k v).map Prod.fst).Nodup := by
  induction es with
  | nil => simp [aset]
  | cons e rest ih =>
    obtain ⟨k1, v1⟩ := e
    rw [List.map_cons, List.nodup_cons] at h
    rw [show aset ((k1, v1) :: rest) k v =
      if k1 = k then (k, v) :: rest else (k1, v1) :: aset rest k v from rfl]
    by_cases h2 : k1 = k
    · rw [if_pos h2, List.map_cons, List.nodup_cons]
      rw [← h2]
      exact h
    · rw [if_neg h2, List.map_cons, List.nodup_cons]
      refine ⟨?_, ih h.2⟩
      rw [mem_keys_aset, not_or]
      exact ⟨h.1, fun he => h2 he⟩

/-- A field outside the update entries is untouched. -/
theorem applyUpdate_not_mem (d : Doc) (es : List (String × Option DVal))
    (k : String) (h : k ∉ es.map Prod.fst) :
    getField (applyUpdate d es) k = getField d k := by
  induction es generalizing d with
  | nil => rfl
  | cons e rest ih =>
    obtain ⟨k1, v1⟩ := e
    rw [List.map_cons, List.mem_cons, not_or] at h
    cases v1 with
    | some v =>
      rw [show applyUpdate d ((k1, some v) :: rest) =
        applyUpdate (aset d k1 v) rest from rfl]
      rw [ih _ h.2]
      exact alookup_aset_ne d k1 k v h.1
    | none =>
      rw [show applyUpdate d ((k1, none) :: rest) = applyUpdate d rest from rfl]
      exact ih _ h.2

/-- A field whose entry carries a defined value is set to that value,
provided the entry keys are distinct. -/
theorem applyUpdate_some (d : Doc) (es : List (String × Option DVal))
    (k : String) (v : DVal) (hn : (es.map Prod.fst).Nodup)
    (h : alookup es k = some (some v)) :
    getField (applyUpdate d es) k = some v := by
  induction es generalizing d with
  | nil => simp [alookup] at h
  | cons e rest ih =>
    obtain ⟨k1, e1⟩ := e
    rw [List.map_cons, List.nodup_cons] at hn
    rw [show alookup ((k1, e1) :: rest) k =
      if k1 = k then some e1 else alookup rest k from rfl] at h
    by_cases hk : k1 = k
    · rw [if_pos hk] at h
      cases h
      subst hk
      rw [show applyUpdate d ((k1, some v) :: rest) =
        applyUpdate (aset d k1 v) rest from rfl]
      rw [applyUpdate_not_mem _ _ _ hn.1]
      exact alookup_aset_self d k1 v
    · rw [if_neg hk] at h
      cases e1 with
      | some v1 =>
        rw [show applyUpdate d ((k1, some v1) :: rest) =
          applyUpdate (aset d k1 v1) rest from rfl]
        exact ih _ hn.2 h
      | none =>
        rw [show applyUpdate d ((k1, none) :: rest) =
          applyUpdate d rest from rfl]
        exact ih _ hn.2 h

/-- A field whose entry carries the value undefined is not altered, provided
the entry keys are distinct. -/
theorem applyUpdate_undef (d : Doc) (es : List (String × Option DVal))
    (k : String) (hn : (es.map Prod.fst).Nodup)
    (h : alookup es k = some none) :
    getField (applyUpdate d es) k = getField d k := by
  induction es generalizing d with
  | nil => simp [alookup] at h
  | cons e rest ih =>
    obtain ⟨k1, e1⟩ := e
    rw [List.map_cons, List.nodup_cons] at hn
    rw [show alookup ((k1, e1) :: rest) k =
      if k1 = k then some e1 else alookup rest k from rfl] at h
    by_cases hk : k1 = k
    · rw [if_pos hk] at h
      cases h
      subst hk
      rw [show applyUpdate d ((k1, none) :: rest) = applyUpdate d rest from rfl]
      exact applyUpdate_not_mem _ _ _ hn.1
    · rw [if_neg hk] at h
      cases e1 with
      | some v1 =>
        rw [show applyUpdate d ((k1, some v1) :: rest) =
          applyUpdate (aset d k1 v1) rest from rfl]
        rw [ih _ hn.2 h]
        exact alookup_aset_ne d k1 k v1 (fun he => hk he.symm)
      | none =>
        rw [show applyUpdate d ((k1, none) :: rest) =
          applyUpdate d rest from rfl]
        exact ih _ hn.2 h

/-- Lookup through the lifted updates mapping. -/
theorem alookup_map_embed (fields : List (String × JVal)) (k : String) :
    alookup (fields.map (fun p => (p.1, some (embedJVal p.2)))) k =
      (alookup fields k).map (fun v => some (embedJVal v)) := by
  induction fields with
  | nil => rfl
  | cons p rest ih =>
    obtain ⟨k1, v1⟩ := p
    by_cases h : k1 = k <;> simp [alookup, h, ih]

/-- Lifting the updates mapping keeps its keys. -/
theorem keys_map_embed (fields : List (String × JVal)) :
    (fields.map (fun p => (p.1, some (embedJVal p.2)))).map Prod.fst =
      fields.map Prod.fst := by
  induction fields with
  | nil => rfl
  | cons p rest ih => simp [ih]

/-- The update literal keeps key distinctness of the mapping. -/
theorem nodup_keys_buildUpdateObj (fields : List (String × JVal))
    (h : (fields.map Prod.fst).Nodup) :
    ((buildUpdateObj fields).map Prod.fst).Nodup := by
  unfold buildUpdateObj
  apply nodup_keys_aset
  apply nodup_keys_aset
  apply nodup_keys_aset
  rw [keys_map_embed]
  exact h

/-- The update literal always carries the server update timestamp. -/
theorem buildUpdateObj_updatedAt (fields : List (String × JVal)) :
    alookup (buildUpdateObj fields) "updatedAt" = some (some DVal.svrTime) :=
  alookup_aset_self _ _ _

/-- The update literal entry for nameLowercase is the conditional lowercase
of updates.name. -/
theorem buildUpdateObj_nameLowercase (fields : List (String × JVal)) :
    alookup (buildUpdateObj fields) "nameLowercase" =
      some (lowerOfUpdate fields "name") := by
  unfold buildUpdateObj
  rw [alookup_aset_ne _ _ _ _ (by decide), alookup_aset_self]

/-- The update literal entry for usernameLowercase is the conditional
lowercase of updates.username. -/
theorem buildUpdateObj_usernameLowercase (fields : List (String × JVal)) :
    alookup (buildUpdateObj fields) "usernameLowercase" =
      some (lowerOfUpdate fields "username") := by
  unfold buildUpdateObj
  rw [alookup_aset_ne _ _ _ _ (by decide), alookup_aset_ne _ _ _ _ (by decide),
    alookup_aset_self]

/-- Every other key of the update literal is the lifted mapping entry. -/
theorem buildUpdateObj_other (fields : List (String × JVal)) (k : String)
    (h1 : k ≠ "usernameLowercase") (h2 : k ≠ "nameLowercase")
    (h3 : k ≠ "updatedAt") :
    alookup (buildUpdateObj fields) k =
      (alookup fields k).map (fun v => some (embedJVal v)) := by
  unfold buildUpdateObj
  rw [alookup_aset_ne _ _ _ _ h3, alookup_aset_ne _ _ _ _ h2,
    alookup_aset_ne _ _ _ _ h1, alookup_map_embed]

/-- Characterization of a successful updateUser request: authorized, valid,
aimed at an existing document; the handler stores and returns the document
updated by the spread literal. -/
theorem updateUser_success (K : String) (st : Store) (req : Req)
    (hk1 : updSecret req = K) (hk2 : K ≠ "")
    (id : String) (hid : effId req = some id) (hidne : id ≠ "")
    (fields : List (String × JVal))
    (hupd : effUpdates req = some (.uobj fields))
    (doc : Doc) (hdoc : alookup st id = some doc) :
    updateUser K st req =
      { status := 200
        ok := true
        store := aset st id (applyUpdate doc (buildUpdateObj fields))
        returnedUser := some (applyUpdate doc (buildUpdateObj fields)) } := by
  have hcond : ¬(updSecret req = "" ∨ updSecret req ≠ K) := by
    rw [hk1]
    simp [hk2]
  have hvalid : updValid (some id) (some (JSUpd.uobj fields)) = true := by
    simp [updValid, idFalsy, updFalsy, updTruthy, typeofObject, hidne]
  simp [updateUser, hcond, hvalid, hid, hupd, updFields, hdoc]

/-- Counterexample to claim C5: presence of the username key in the mapping
is not enough to recompute usernameLowercase; the code tests truthiness.
Updating username to the empty string (key present, value falsy) on a
stored document with usernameLowercase old stores username as the empty
string but leaves usernameLowercase as old, while the claim demands the
recomputed lowercase of the supplied username, which is the empty string. -/
theorem update_patch_counterexample :
    (updateUser "dev-seed-key" stOld reqEmptyUsername).status = 200 ∧
    (updateUser "dev-seed-key" stOld reqEmptyUsername).returnedUser =
      some [("username", DVal.str ""), ("usernameLowercase", DVal.str "old"),
            ("bio", DVal.str "b"), ("updatedAt", DVal.svrTime)] ∧
    jsToLower "" = "" ∧
    (some (DVal.str "old") : Option DVal) ≠ some (DVal.str "") :=
  ⟨rfl, rfl, rfl, by simp⟩

/-- Claim C5 as amended: for an authorized, valid update of an existing
document, the stored and returned document is the old document patched with
the supplied mapping, with usernameLowercase recomputed as the lowercase of
String(updates.username) when updates.username is truthy (a non-empty,
non-falsy value) and left unaltered when the key is absent or its value is
falsy, likewise nameLowercase for updates.name, plus a fresh server update
timestamp; every field outside the mapping and the three recomputed keys is
unchanged, and the updated document is read back and returned. -/
theorem update_patch_semantics (K : String) (st : Store) (req : Req)
    (hk1 : updSecret req = K) (hk2 : K ≠ "")
    (id : String) (hid : effId req = some id) (hidne : id ≠ "")
    (fields : List (String × JVal))
    (hupd : effUpdates req = some (.uobj fields))
    (hnodup : (fields.map Prod.fst).Nodup)
    (doc : Doc) (hdoc : alookup st id = some doc) :
    (updateUser K st req).status = 200 ∧
    (updateUser K st req).ok = true ∧
    (updateUser K st req).returnedUser =
      some (applyUpdate doc (buildUpdateObj fields)) ∧
    alookup (updateUser K st req).store id =
      some (applyUpdate doc (buildUpdateObj fields)) ∧
    getField (applyUpdate doc (buildUpdateObj fields)) "updatedAt" =
      some DVal.svrTime ∧
    (∀ k v, alookup fields k = some v → k ≠ "usernameLowercase" →
      k ≠ "nameLowercase" → k ≠ "updatedAt" →
      getField (applyUpdate doc (buildUpdateObj fields)) k =
        some (embedJVal v)) ∧
    (∀ k, k ∉ fields.map Prod.fst → k ≠ "usernameLowercase" →
      k ≠ "nameLowercase" → k ≠ "updatedAt" →
      getField (applyUpdate doc (buildUpdateObj fields)) k =
        getField doc k) ∧
    (∀ v, alookup fields "username" = some v → jvTruthy v = true →
      getField (applyUpdate doc (buildUpdateObj fields)) "usernameLowercase" =
        some (DVal.str (jsToLower (jsToString v)))) ∧
    (alookup fields "username" = none →
      getField (applyUpdate doc (buildUpdateObj fields)) "usernameLowercase" =
        getField doc "usernameLowercase") ∧
    (∀ v, alookup fields "username" = some v → jvTruthy v = false →
      getField (applyUpdate doc (buildUpdateObj fields)) "usernameLowercase" =
        getField doc "usernameLowercase") ∧
    (∀ v, alookup fields "name" = some v → jvTruthy v = true →
      getField (applyUpdate doc (buildUpdateObj fields)) "nameLowercase" =
        some (DVal.str (jsToLower (jsToString v)))) ∧
    (alookup fields "name" = none →
      getField (applyUpdate doc (buildUpdateObj fields)) "nameLowercase" =
        getField doc "nameLowercase") ∧
    (∀ v, alookup fields "name" = some v → jvTruthy v = false →
      getField (applyUpdate doc (buildUpdateObj fields)) "nameLowercase" =
        getField doc "nameLowercase") := by
  have heq := updateUser_success K st req hk1 hk2 id hid hidne fields hupd doc hdoc
  have hn := nodup_keys_buildUpdateObj fields hnodup
  refine ⟨by rw [heq], by rw [heq], by rw [heq], ?_, ?_, ?_, ?_, ?_, ?_, ?_, ?_, ?_, ?_⟩
  · rw [heq]
    exact alookup_aset_self st id _
  · exact applyUpdate_some doc _ _ _ hn (buildUpdateObj_updatedAt fields)
  · intro k v hkv h1 h2 h3
    refine applyUpdate_some doc _ _ _ hn ?_
    rw [buildUpdateObj_other fields k h1 h2 h3, hkv]
    rfl
  · intro k hk h1 h2 h3
    refine applyUpdate_not_mem doc _ _ ?_
    rw [← alookup_eq_none]
    rw [buildUpdateObj_other fields k h1 h2 h3,
      (alookup_eq_none fields k).mpr hk]
    rfl
  · intro v hv ht
    refine applyUpdate_some doc _ _ _ hn ?_
    rw [buildUpdateObj_usernameLowercase fields]
    simp [lowerOfUpdate, hv, ht]
  · intro hv
    refine applyUpdate_undef doc _ _ hn ?_
    rw [buildUpdateObj_usernameLowercase fields]
    simp [lowerOfUpdate, hv]
  · intro v hv ht
    refine applyUpdate_undef doc _ _ hn ?_
    rw [buildUpdateObj_usernameLowercase fields]
    simp [lowerOfUpdate, hv, ht]
  · intro v hv ht
    refine applyUpdate_some doc _ _ _ hn ?_
    rw [buildUpdateObj_nameLowercase fields]
    simp [lowerOfUpdate, hv, ht]
  · intro hv
    refine applyUpdate_undef doc _ _ hn ?_
    rw [buildUpdateObj_nameLowercase fields]
    simp [lowerOfUpdate, hv]
  · intro v hv ht
    refine applyUpdate_undef doc _ _ hn ?_
    rw [buildUpdateObj_nameLowercase fields]
    simp [lowerOfUpdate, hv, ht]

/-- Witness for claim C5: updating username to Foo on the stored document
with username Old yields a 200 response, usernameLowercase foo and a fresh
update timestamp. -/
theorem update_patch_semantics_witness :
    (updateUser "dev-seed-key" stOld reqFoo).status = 200 ∧
    getField (applyUpdate docOld (buildUpdateObj [("username", JVal.str "Foo")]))
        "usernameLowercase" = some (DVal.str "foo") ∧
    getField (applyUpdate docOld (buildUpdateObj [("username", JVal.str "Foo")]))
        "updatedAt" = some DVal.svrTime := by
  have h := update_patch_semantics "dev-seed-key" stOld reqFoo rfl (by decide)
    "u1" rfl (by decide) [("username", JVal.str "Foo")] rfl (by decide)
    docOld rfl
  refine ⟨h.1, ?_, h.2.2.2.2.1⟩
  have h8 := h.2.2.2.2.2.2.2.1 (JVal.str "Foo") rfl rfl
  exact h8.trans (by rfl)

end CritiCloud
